import Mathlib

/-!
Verification development for the NAT-redirect toggling and IP-registration
script (`register_ip.sh`).

The script is embedded shallowly:

* The live NAT table is modelled by `FwState`, tracking for each of the two
  redirect rules of interest (PREROUTING 80→8000 and OUTPUT 80→8000) how many
  copies are currently installed (`iptables -A` appends a copy, `iptables -D`
  deletes one, `iptables -C` tests existence).
* The external world (credentials after input collection, the outcome of each
  `curl` invocation, privilege for `sudo iptables`, availability of
  `netfilter-persistent`) is an `Env` record.
* A run produces an exit code, a final `FwState`, and a trace of the external
  commands it executed (`Act`).
* The `echo "$X" | grep -qE '^[0-9]{1,3}(\.[0-9]{1,3}){3}$'` idiom used to
  validate candidate addresses is modelled exactly: `echo` output is split
  into newline-separated lines and the anchored pattern is tried per line
  (`grepQuadQ`).  The `tr -d '[:space:]' | grep -oE '^…' | head -1` cleaning
  of the HTTP fallback is modelled by `cleanIP`.
-/

namespace RegisterIp

/-- One POSIX `[:space:]` character (space, tab, newline, vertical tab, form
feed, carriage return), the set deleted by `tr -d '[:space:]'`. -/
def isSpaceCh (c : Char) : Bool :=
  c == ' ' || c == '\t' || c == '\n' || c == '\r' || c.val == 11 || c.val == 12

/-- Matching of one `[0-9]{1,3}` group that the pattern requires to be
followed by a non-digit (`\.` or end of line): the greedy match succeeds
exactly when the leading digit run has length 1–3, and it consumes the whole
run.  Returns the consumed digits and the rest. -/
def octetSplit (cs : List Char) : Option (List Char × List Char) :=
  let d := cs.takeWhile Char.isDigit
  if d.isEmpty ∨ 3 < d.length then none
  else some (d, cs.dropWhile Char.isDigit)

/-- Consume a literal `.` (the `\.` of the pattern). -/
def eatDot : List Char → Option (List Char)
  | '.' :: t => some t
  | _ => none

/-- Matching of the final `[0-9]{1,3}` group of the unanchored-right pattern
used by `grep -oE`: greedily consumes up to three leading digits, requiring at
least one. -/
def lastOctet (cs : List Char) : Option (List Char × List Char) :=
  let d := (cs.takeWhile Char.isDigit).take 3
  if d.isEmpty then none else some (d, cs.drop d.length)

/-- The pattern `[0-9]{1,3}\.[0-9]{1,3}\.[0-9]{1,3}\.` followed by a last
group given by `lastGrp`, anchored at the start.  Returns the matched text and
the unconsumed rest. -/
def quadCore (lastGrp : List Char → Option (List Char × List Char))
    (cs : List Char) : Option (List Char × List Char) := do
  let (a, r1) ← octetSplit cs
  let t1 ← eatDot r1
  let (b, r2) ← octetSplit t1
  let t2 ← eatDot r2
  let (c, r3) ← octetSplit t2
  let t3 ← eatDot r3
  let (d, r4) ← lastGrp t3
  pure (a ++ '.' :: (b ++ '.' :: (c ++ '.' :: d)), r4)

/-- One line matches the fully anchored pattern
`^[0-9]{1,3}\.[0-9]{1,3}\.[0-9]{1,3}\.[0-9]{1,3}$` (lines 76/86/97/114 of the
script). -/
def validChars (cs : List Char) : Bool :=
  match quadCore octetSplit cs with
  | some (_, r) => r.isEmpty
  | none => false

/-- Split a character stream into the newline-separated lines that `grep`
sees after `echo` appends its final newline. -/
def splitNl : List Char → List (List Char)
  | [] => [[]]
  | c :: t =>
    if c = '\n' then [] :: splitNl t
    else
      match splitNl t with
      | [] => [[c]]
      | l :: ls => (c :: l) :: ls

/-- The script's candidate-address validator
`echo "$X" | grep -qE '^[0-9]{1,3}\.[0-9]{1,3}\.[0-9]{1,3}\.[0-9]{1,3}$'`:
`grep -q` succeeds when ANY line of the candidate matches the anchored
pattern. -/
def grepQuadQ (s : String) : Bool := (splitNl s.data).any validChars

/-- The HTTP-fallback cleaning step (line 109):
`tr -d '[:space:]' | grep -oE '^[0-9]{1,3}\.[0-9]{1,3}\.[0-9]{1,3}\.[0-9]{1,3}' | head -1`.
All whitespace is deleted, then the leftmost-longest anchored match (if any)
is extracted; otherwise the result is empty. -/
def cleanIP (s : String) : String :=
  let stripped := s.data.filter (fun c => !isSpaceCh c)
  match quadCore lastOctet stripped with
  | some (m, _) => String.mk m
  | none => ""

/-- Specification-side notion of one dotted-quad group: one to three decimal
digits. -/
def isOctet (g : List Char) : Bool :=
  !g.isEmpty && decide (g.length ≤ 3) && g.all Char.isDigit

/-- Specification-side dotted-quad grammar: exactly four groups of 1–3 decimal
digits separated by periods. -/
def dottedQuad (cs : List Char) : Prop :=
  ∃ a b c d, cs = a ++ '.' :: (b ++ '.' :: (c ++ '.' :: d)) ∧
    isOctet a = true ∧ isOctet b = true ∧ isOctet c = true ∧ isOctet d = true

/-- Copies of each of the two NAT redirect rules currently installed in the
live table: the PREROUTING 80→8000 rule and the OUTPUT 80→8000 rule. -/
structure FwState where
  pre : Nat
  out : Nat
deriving DecidableEq, Repr

/-- The external world of one run: collected credentials, whether
`sudo iptables` works, the outcome of each discovery `curl` (exit status and
captured stdout, trailing newlines already stripped by command substitution),
the HTTP status of the registration call, and whether `netfilter-persistent`
is installed. -/
structure Env where
  username : String
  label : String
  token : String
  privileged : Bool
  src1Ok : Bool
  src1Out : String
  src2Ok : Bool
  src2Out : String
  src3Ok : Bool
  src3Out : String
  src4Ok : Bool
  src4Out : String
  regStatus : Nat
  persistAvail : Bool
deriving DecidableEq, Repr

/-- External commands a run can execute.  `checkPre`/`checkOut` record the
result of `iptables -C`; `addPre`/`addOut` record how many copies of the rule
were installed at the moment `iptables -A` ran; `querySrc i` is the `curl` to
discovery source `i`; `register ip` is the registration POST carrying
`ipAddress = ip`. -/
inductive Act where
  | checkPre : Bool → Act
  | checkOut : Bool → Act
  | delPre : Act
  | delOut : Act
  | addPre : Nat → Act
  | addOut : Nat → Act
  | querySrc : Nat → Act
  | register : String → Act
  | persistSave : Act
deriving DecidableEq, Repr

/-- Outcome of one run: process exit code, final live NAT state, and the
trace of executed external commands. -/
structure RunResult where
  exitCode : Nat
  state : FwState
  trace : List Act
deriving DecidableEq, Repr

/-- `sudo iptables -t nat -C … 2>/dev/null` (lines 51/55/145/150): exit
status 0 exactly when the caller is privileged and at least one copy of the
rule is installed; a permission failure and an absent rule both yield
`false`, stderr being discarded. -/
def inspectRule (privileged : Bool) (copies : Nat) : Bool :=
  privileged && decide (0 < copies)

/-- Line 41: `[ -z "$USERNAME" ] || [ -z "$TOKEN" ] || [ -z "$LABEL" ]`. -/
def credsMissing (e : Env) : Bool :=
  e.username == "" || e.token == "" || e.label == ""

/-- One discovery attempt for sources 1–3 (lines 75–81, 84–92, 95–103):
`PUBLIC_IP` receives the captured stdout; only when `curl` exited 0 is the
`[ -n … ] && grep -qE …` validation applied, resetting `PUBLIC_IP` to empty
on failure.  When `curl` fails, its captured stdout is kept as is. -/
def srcStep (fetchOk : Bool) (outp : String) : String :=
  if fetchOk then (if outp = "" then "" else if grepQuadQ outp then outp else "")
  else outp

/-- The HTTP-fallback attempt (lines 106–111): on `curl` success the output is
cleaned by `cleanIP`; on failure the captured stdout is kept as is. -/
def src4Step (fetchOk : Bool) (outp : String) : String :=
  if fetchOk then cleanIP outp else outp

/-- The discovery chain (lines 72–111): source 1 is always queried; each later
source is queried only when `PUBLIC_IP` is still empty.  Returns the final
`PUBLIC_IP` value and the trace of queried sources. -/
def discover (e : Env) : String × List Act :=
  let ip1 := srcStep e.src1Ok e.src1Out
  if ip1 = "" then
    let ip2 := srcStep e.src2Ok e.src2Out
    if ip2 = "" then
      let ip3 := srcStep e.src3Ok e.src3Out
      if ip3 = "" then
        (src4Step e.src4Ok e.src4Out,
          [Act.querySrc 1, Act.querySrc 2, Act.querySrc 3, Act.querySrc 4])
      else (ip3, [Act.querySrc 1, Act.querySrc 2, Act.querySrc 3])
    else (ip2, [Act.querySrc 1, Act.querySrc 2])
  else (ip1, [Act.querySrc 1])

/-- `HAS_PREROUTING` (lines 51–53). -/
def hasPreS (e : Env) (s0 : FwState) : Bool := inspectRule e.privileged s0.pre

/-- `HAS_OUTPUT` (lines 55–57). -/
def hasOutS (e : Env) (s0 : FwState) : Bool := inspectRule e.privileged s0.out

/-- `PORT_FORWARDING_DISABLED` (lines 60–61). -/
def suspended (e : Env) (s0 : FwState) : Bool := hasPreS e s0 || hasOutS e s0

/-- NAT state after the suspension block (lines 60–68): one copy of each rule
recorded present is deleted. -/
def afterSuspend (e : Env) (s0 : FwState) : FwState :=
  ⟨if hasPreS e s0 then s0.pre - 1 else s0.pre,
   if hasOutS e s0 then s0.out - 1 else s0.out⟩

/-- Trace of the suspension block (lines 60–68). -/
def suspendTrace (e : Env) (s0 : FwState) : List Act :=
  (if hasPreS e s0 then [Act.delPre] else []) ++
  (if hasOutS e s0 then [Act.delOut] else [])

/-- The body of the script after credential validation (lines 46–170). -/
def runBody (e : Env) (s0 : FwState) : RunResult :=
  let hp := hasPreS e s0
  let ho := hasOutS e s0
  let tr0 := [Act.checkPre hp, Act.checkOut ho]
  let dis := suspended e s0
  let s1 := afterSuspend e s0
  let tr1 := suspendTrace e s0
  let ip := (discover e).1
  let trD := (discover e).2
  if grepQuadQ ip then
    let c1 := inspectRule e.privileged s1.pre
    let trP := if dis && hp then
        Act.checkPre c1 :: (if c1 then [] else [Act.addPre s1.pre]) else []
    let s2pre := if dis && hp && !c1 then s1.pre + 1 else s1.pre
    let c2 := inspectRule e.privileged s1.out
    let trQ := if dis && ho then
        Act.checkOut c2 :: (if c2 then [] else [Act.addOut s1.out]) else []
    let s2out := if dis && ho && !c2 then s1.out + 1 else s1.out
    let trS := if dis && e.persistAvail then [Act.persistSave] else []
    ⟨if e.regStatus = 200 then 0 else 1, ⟨s2pre, s2out⟩,
      tr0 ++ tr1 ++ trD ++ [Act.register ip] ++ trP ++ trQ ++ trS⟩
  else
    let s2 : FwState :=
      ⟨if dis && hp then s1.pre + 1 else s1.pre,
       if dis && ho then s1.out + 1 else s1.out⟩
    let tr2 := (if dis && hp then [Act.addPre s1.pre] else []) ++
               (if dis && ho then [Act.addOut s1.out] else [])
    ⟨1, s2, tr0 ++ tr1 ++ trD ++ tr2⟩

/-- One whole run of `register_ip.sh`, after input collection: credential
validation (lines 41–44) aborts before anything else runs; otherwise the body
executes. -/
def run (e : Env) (s0 : FwState) : RunResult :=
  if credsMissing e then ⟨1, s0, []⟩ else runBody e s0

/-- A run reaches the Registering stage exactly when credentials are present
and the discovered candidate passes the line-114 validation gate. -/
def reachesRegistering (e : Env) : Bool :=
  !credsMissing e && grepQuadQ (discover e).1

/-- Specification-side validity of a candidate: the whole string matches the
dotted-quad grammar. -/
def specValid (s : String) : Bool := validChars s.data

/-- Specification-side discovery chain, following the spec's words: the first
source whose yield is a structurally valid dotted quad wins (source 4's yield
being its cleaned output); `none` when all four sources exhaust. -/
def specDiscover (e : Env) : Option String :=
  if e.src1Ok && specValid e.src1Out then some e.src1Out
  else if e.src2Ok && specValid e.src2Out then some e.src2Out
  else if e.src3Ok && specValid e.src3Out then some e.src3Out
  else if e.src4Ok && specValid (cleanIP e.src4Out) then some (cleanIP e.src4Out)
  else none

/-- Specification-side list of invoked sources: everything up to and including
the first source that yields a valid result, or all four. -/
def specTried (e : Env) : List Act :=
  if e.src1Ok && specValid e.src1Out then [Act.querySrc 1]
  else if e.src2Ok && specValid e.src2Out then [Act.querySrc 1, Act.querySrc 2]
  else if e.src3Ok && specValid e.src3Out then
    [Act.querySrc 1, Act.querySrc 2, Act.querySrc 3]
  else [Act.querySrc 1, Act.querySrc 2, Act.querySrc 3, Act.querySrc 4]

/-- A run in which both redirect rules are present, the metadata source
returns a valid address, registration returns 200, and the persistence tool
is installed. -/
def envOkBoth : Env :=
  ⟨"alice", "web", "tok", true, true, "203.0.113.7",
   false, "", false, "", false, "", 200, true⟩

/-- A run in which every discovery fetch fails with empty captured output. -/
def envFailSrc : Env :=
  ⟨"alice", "web", "tok", true, false, "", false, "", false, "", false, "", 200, true⟩

/-- A run in which the metadata fetch fails but leaves nonempty partial output
captured in `PUBLIC_IP`, while the second source would return a valid
address. -/
def envC2ce : Env :=
  ⟨"alice", "web", "tok", true, false, "garbage", true, "203.0.113.7",
   false, "", false, "", 200, false⟩

/-- An unprivileged run (every `sudo iptables` invocation fails). -/
def envNoPriv : Env :=
  ⟨"alice", "web", "tok", false, true, "203.0.113.7",
   false, "", false, "", false, "", 200, true⟩

/-- The privileged twin of `envNoPriv`. -/
def envPriv : Env :=
  ⟨"alice", "web", "tok", true, true, "203.0.113.7",
   false, "", false, "", false, "", 200, true⟩

/-- A run whose metadata source returns a multi-line body whose second line is
a dotted quad. -/
def envMultiLine : Env :=
  ⟨"alice", "web", "tok", true, true, "abc\n203.0.113.7",
   false, "", false, "", false, "", 200, false⟩

/-- A run with an empty bearer token after input collection. -/
def envNoToken : Env :=
  ⟨"alice", "web", "", true, true, "203.0.113.7",
   false, "", false, "", false, "", 200, true⟩

/-! ## Properties of the dotted-quad matchers -/

lemma eatDot_sound {r t : List Char} (h : eatDot r = some t) : r = '.' :: t := by
  cases r with
  | nil => exact absurd h (by simp [eatDot])
  | cons c r' =>
    by_cases hc : c = '.'
    · subst hc
      simp only [eatDot, Option.some.injEq] at h
      rw [h]
    · cases c <;> simp_all [eatDot]

lemma octetSplit_sound {cs d r : List Char} (h : octetSplit cs = some (d, r)) :
    cs = d ++ r ∧ isOctet d = true := by
  simp only [octetSplit] at h
  split at h
  · exact absurd h (by simp)
  · rename_i hcond
    rw [Option.some.injEq, Prod.mk.injEq] at h
    obtain ⟨h1, h2⟩ := h
    subst h1; subst h2
    push_neg at hcond
    refine ⟨(List.takeWhile_append_dropWhile Char.isDigit cs).symm, ?_⟩
    simp only [isOctet, Bool.and_eq_true, Bool.not_eq_true', decide_eq_true_eq,
      List.all_eq_true]
    refine ⟨⟨?_, hcond.2⟩, fun x hx => List.mem_takeWhile_imp hx⟩
    simpa using hcond.1

lemma lastOctet_sound {cs d r : List Char} (h : lastOctet cs = some (d, r)) :
    cs = d ++ r ∧ isOctet d = true := by
  simp only [lastOctet] at h
  split at h
  · exact absurd h (by simp)
  · rename_i hcond
    rw [Option.some.injEq, Prod.mk.injEq] at h
    obtain ⟨h1, h2⟩ := h
    have hpre : (cs.takeWhile Char.isDigit).take 3 <+: cs :=
      ( List.take_prefix _ _).trans ( List.takeWhile_prefix _)
    constructor
    · rw [← h1, ← h2]
      have hp2 : (cs.takeWhile Char.isDigit).take 3 =
          cs.take ((cs.takeWhile Char.isDigit).take 3).length :=
        List.prefix_iff_eq_take.mp hpre
      conv_lhs => rw [← List.take_append_drop ((cs.takeWhile Char.isDigit).take 3).length cs]
      rw [← hp2]
    · rw [← h1]
      simp only [isOctet, Bool.and_eq_true, Bool.not_eq_true', decide_eq_true_eq,
        List.all_eq_true]
      refine ⟨⟨?_, List.length_take_le 3 _⟩, fun x hx => ?_⟩
      · simpa using hcond
      · exact List.mem_takeWhile_imp (List.take_subset 3 _ hx)

lemma takeWhile_group {d r : List Char} (hd : d.all Char.isDigit = true)
    (hr : ∀ c t, r = c :: t → Char.isDigit c = false) :
    (d ++ r).takeWhile Char.isDigit = d ∧ (d ++ r).dropWhile Char.isDigit = r := by
  induction d with
  | nil =>
    simp only [List.nil_append]
    cases r with
    | nil => simp
    | cons c t =>
      have hc := hr c t rfl
      rw [List.takeWhile_cons, List.dropWhile_cons]
      simp [hc]
  | cons c d ih =>
    rw [List.all_cons, Bool.and_eq_true] at hd
    rw [List.cons_append, List.takeWhile_cons, List.dropWhile_cons]
    have := ih hd.2
    simp [hd.1, this.1, this.2]

lemma octetSplit_group {d r : List Char} (hd : isOctet d = true)
    (hr : ∀ c t, r = c :: t → Char.isDigit c = false) :
    octetSplit (d ++ r) = some (d, r) := by
  simp only [isOctet, Bool.and_eq_true, Bool.not_eq_true', decide_eq_true_eq] at hd
  obtain ⟨⟨hne, hlen⟩, hall⟩ := hd
  obtain ⟨htw, hdw⟩ := takeWhile_group hall hr
  simp only [octetSplit, htw, hdw]
  rw [if_neg]
  push_neg
  exact ⟨by simp [hne], hlen⟩

lemma quadCore_sound {lastGrp : List Char → Option (List Char × List Char)}
    (hlast : ∀ cs d r, lastGrp cs = some (d, r) → cs = d ++ r ∧ isOctet d = true)
    {cs m r : List Char} (h : quadCore lastGrp cs = some (m, r)) :
    cs = m ++ r ∧ dottedQuad m := by
  rw [quadCore] at h
  cases h1 : octetSplit cs with
  | none => rw [h1] at h; exact absurd h (by simp)
  | some p1 =>
    obtain ⟨a, r1⟩ := p1
    rw [h1] at h
    simp only [Option.bind_eq_bind, Option.some_bind] at h
    cases h2 : eatDot r1 with
    | none => rw [h2] at h; exact absurd h (by simp)
    | some t1 =>
      rw [h2] at h
      simp only [Option.some_bind] at h
      cases h3 : octetSplit t1 with
      | none => rw [h3] at h; exact absurd h (by simp)
      | some p2 =>
        obtain ⟨b, r2⟩ := p2
        rw [h3] at h
        simp only [Option.some_bind] at h
        cases h4 : eatDot r2 with
        | none => rw [h4] at h; exact absurd h (by simp)
        | some t2 =>
          rw [h4] at h
          simp only [Option.some_bind] at h
          cases h5 : octetSplit t2 with
          | none => rw [h5] at h; exact absurd h (by simp)
          | some p3 =>
            obtain ⟨c, r3⟩ := p3
            rw [h5] at h
            simp only [Option.some_bind] at h
            cases h6 : eatDot r3 with
            | none => rw [h6] at h; exact absurd h (by simp)
            | some t3 =>
              rw [h6] at h
              simp only [Option.some_bind] at h
              cases h7 : lastGrp t3 with
              | none => rw [h7] at h; exact absurd h (by simp)
              | some p4 =>
                obtain ⟨d, r4⟩ := p4
                rw [h7] at h
                simp only [Option.some_bind, Option.pure_def, Option.some.injEq,
                  Prod.mk.injEq] at h
                obtain ⟨hm, hrr⟩ := h
                obtain ⟨hc1, ho1⟩ := octetSplit_sound h1
                have hd1 := eatDot_sound h2
                obtain ⟨hc2, ho2⟩ := octetSplit_sound h3
                have hd2 := eatDot_sound h4
                obtain ⟨hc3, ho3⟩ := octetSplit_sound h5
                have hd3 := eatDot_sound h6
                obtain ⟨hc4, ho4⟩ := hlast _ _ _ h7
                subst hm hrr
                constructor
                · rw [hc1, hd1, hc2, hd2, hc3, hd3, hc4]
                  simp [List.append_assoc]
                · exact ⟨a, b, c, d, rfl, ho1, ho2, ho3, ho4⟩

lemma octetSplit_group_dot {d r : List Char} (hd : isOctet d = true) :
    octetSplit (d ++ '.' :: r) = some (d, '.' :: r) :=
  octetSplit_group hd (fun x t hx => by cases hx; decide)

lemma octetSplit_group_nil {d : List Char} (hd : isOctet d = true) :
    octetSplit d = some (d, []) := by
  have := octetSplit_group hd (r := []) (fun x t hx => by cases hx)
  simpa using this

lemma validChars_of_dottedQuad {cs : List Char} (h : dottedQuad cs) :
    validChars cs = true := by
  obtain ⟨a, b, c, d, rfl, ha, hb, hc, hd⟩ := h
  have h1 := octetSplit_group_dot (r := b ++ '.' :: (c ++ '.' :: d)) ha
  have h2 := octetSplit_group_dot (r := c ++ '.' :: d) hb
  have h3 := octetSplit_group_dot (r := d) hc
  have h4 := octetSplit_group_nil hd
  simp [validChars, quadCore, h1, h2, h3, h4, eatDot]

lemma validChars_iff {cs : List Char} : validChars cs = true ↔ dottedQuad cs := by
  constructor
  · intro h
    rw [validChars] at h
    cases hq : quadCore octetSplit cs with
    | none => rw [hq] at h; cases h
    | some p =>
      obtain ⟨m, r⟩ := p
      rw [hq] at h
      rw [List.isEmpty_iff] at h
      subst h
      obtain ⟨hcs, hdq⟩ := quadCore_sound (fun _ _ _ hh => octetSplit_sound hh) hq
      rw [List.append_nil] at hcs
      rw [hcs]
      exact hdq
  · exact validChars_of_dottedQuad

lemma splitNl_of_no_nl {cs : List Char} (h : '\n' ∉ cs) : splitNl cs = [cs] := by
  induction cs with
  | nil => rfl
  | cons c t ih =>
    have hc : ¬c = '\n' := fun hce => h (hce ▸ List.mem_cons_self c t)
    have ht : '\n' ∉ t := fun hm => h (List.mem_cons_of_mem _ hm)
    simp [splitNl, hc, ih ht]

lemma grepQuadQ_eq_of_no_nl {s : String} (h : '\n' ∉ s.data) :
    grepQuadQ s = validChars s.data := by
  rw [grepQuadQ, splitNl_of_no_nl h]
  simp

lemma grepQuadQ_iff {s : String} :
    grepQuadQ s = true ↔ ∃ l ∈ splitNl s.data, dottedQuad l := by
  rw [grepQuadQ, List.any_eq_true]
  exact exists_congr fun l => and_congr_right fun _ => validChars_iff

lemma cleanIP_cases (s : String) :
    cleanIP s = "" ∨ specValid (cleanIP s) = true := by
  simp only [cleanIP]
  cases hq : quadCore lastOctet (s.data.filter fun c => !isSpaceCh c) with
  | none => exact Or.inl rfl
  | some p =>
    obtain ⟨m, r⟩ := p
    refine Or.inr ?_
    obtain ⟨_, hdq⟩ := quadCore_sound (fun _ _ _ hh => lastOctet_sound hh) hq
    exact validChars_of_dottedQuad hdq

/-! ## Shape of a run -/

lemma run_exit (e : Env) (s0 : FwState) :
    (run e s0).exitCode =
      if credsMissing e then 1
      else if grepQuadQ (discover e).1 then (if e.regStatus = 200 then 0 else 1)
      else 1 := by
  rw [run]
  by_cases hc : credsMissing e
  · simp [hc]
  · rw [if_neg hc, if_neg hc]
    simp only [runBody]
    by_cases hg : grepQuadQ (discover e).1 <;> simp [hg]

lemma run_state (e : Env) (s0 : FwState) (hc : credsMissing e = false) :
    (run e s0).state =
      if grepQuadQ (discover e).1 then
        ⟨if (suspended e s0 && hasPreS e s0) &&
              !inspectRule e.privileged (afterSuspend e s0).pre
            then (afterSuspend e s0).pre + 1 else (afterSuspend e s0).pre,
         if (suspended e s0 && hasOutS e s0) &&
              !inspectRule e.privileged (afterSuspend e s0).out
            then (afterSuspend e s0).out + 1 else (afterSuspend e s0).out⟩
      else
        ⟨if suspended e s0 && hasPreS e s0
            then (afterSuspend e s0).pre + 1 else (afterSuspend e s0).pre,
         if suspended e s0 && hasOutS e s0
            then (afterSuspend e s0).out + 1 else (afterSuspend e s0).out⟩ := by
  rw [run, if_neg (by simp [hc])]
  simp only [runBody]
  by_cases hg : grepQuadQ (discover e).1 <;> simp [hg]

lemma run_trace_reg (e : Env) (s0 : FwState) (hc : credsMissing e = false)
    (hg : grepQuadQ (discover e).1 = true) :
    (run e s0).trace =
      [Act.checkPre (hasPreS e s0), Act.checkOut (hasOutS e s0)] ++
        suspendTrace e s0 ++ (discover e).2 ++ [Act.register (discover e).1] ++
        (if suspended e s0 && hasPreS e s0 then
          Act.checkPre (inspectRule e.privileged (afterSuspend e s0).pre) ::
            (if inspectRule e.privileged (afterSuspend e s0).pre then []
             else [Act.addPre (afterSuspend e s0).pre])
         else []) ++
        (if suspended e s0 && hasOutS e s0 then
          Act.checkOut (inspectRule e.privileged (afterSuspend e s0).out) ::
            (if inspectRule e.privileged (afterSuspend e s0).out then []
             else [Act.addOut (afterSuspend e s0).out])
         else []) ++
        (if suspended e s0 && e.persistAvail then [Act.persistSave] else []) := by
  rw [run, if_neg (by simp [hc])]
  simp only [runBody]
  simp [hg]

lemma run_trace_fail (e : Env) (s0 : FwState) (hc : credsMissing e = false)
    (hg : grepQuadQ (discover e).1 = false) :
    (run e s0).trace =
      [Act.checkPre (hasPreS e s0), Act.checkOut (hasOutS e s0)] ++
        suspendTrace e s0 ++ (discover e).2 ++
        ((if suspended e s0 && hasPreS e s0
            then [Act.addPre (afterSuspend e s0).pre] else []) ++
         (if suspended e s0 && hasOutS e s0
            then [Act.addOut (afterSuspend e s0).out] else [])) := by
  rw [run, if_neg (by simp [hc])]
  simp only [runBody]
  simp [hg]

lemma discover_trace (e : Env) :
    (discover e).2 = [Act.querySrc 1] ∨
    (discover e).2 = [Act.querySrc 1, Act.querySrc 2] ∨
    (discover e).2 = [Act.querySrc 1, Act.querySrc 2, Act.querySrc 3] ∨
    (discover e).2 =
      [Act.querySrc 1, Act.querySrc 2, Act.querySrc 3, Act.querySrc 4] := by
  simp only [discover]
  by_cases h1 : srcStep e.src1Ok e.src1Out = ""
  · by_cases h2 : srcStep e.src2Ok e.src2Out = ""
    · by_cases h3 : srcStep e.src3Ok e.src3Out = ""
      · simp [h1, h2, h3]
      · simp [h1, h2, h3]
    · simp [h1, h2]
  · simp [h1]

lemma mem_discover {e : Env} {x : Act} (h : x ∈ (discover e).2) :
    x = Act.querySrc 1 ∨ x = Act.querySrc 2 ∨ x = Act.querySrc 3 ∨
      x = Act.querySrc 4 := by
  rcases discover_trace e with h4 | h4 | h4 | h4 <;> rw [h4] at h <;> simp at h <;>
    tauto

lemma mem_ite_nil {c : Prop} [Decidable c] {l : List Act} {x : Act}
    (h : x ∈ if c then l else []) : c ∧ x ∈ l := by
  split at h
  · exact ⟨by assumption, h⟩
  · simp at h

lemma mem_ite_nil2 {c : Prop} [Decidable c] {l : List Act} {x : Act}
    (h : x ∈ if c then [] else l) : ¬c ∧ x ∈ l := by
  split at h
  · simp at h
  · exact ⟨by assumption, h⟩

lemma mem_suspendTrace {e : Env} {s0 : FwState} {x : Act}
    (h : x ∈ suspendTrace e s0) :
    (x = Act.delPre ∧ hasPreS e s0 = true) ∨
      (x = Act.delOut ∧ hasOutS e s0 = true) := by
  rw [suspendTrace, List.mem_append] at h
  rcases h with h | h
  · obtain ⟨hcnd, hm⟩ := mem_ite_nil h
    rw [List.mem_singleton] at hm
    exact Or.inl ⟨hm, hcnd⟩
  · obtain ⟨hcnd, hm⟩ := mem_ite_nil h
    rw [List.mem_singleton] at hm
    exact Or.inr ⟨hm, hcnd⟩

lemma mem_run_trace_cases {e : Env} {s0 : FwState} {x : Act}
    (hc : credsMissing e = false) (hm : x ∈ (run e s0).trace) :
    x = Act.checkPre (hasPreS e s0) ∨ x = Act.checkOut (hasOutS e s0) ∨
    (x = Act.delPre ∧ hasPreS e s0 = true) ∨
    (x = Act.delOut ∧ hasOutS e s0 = true) ∨
    (∃ i, x = Act.querySrc i) ∨
    (x = Act.register (discover e).1 ∧ grepQuadQ (discover e).1 = true) ∨
    (x = Act.checkPre (inspectRule e.privileged (afterSuspend e s0).pre) ∧
      hasPreS e s0 = true) ∨
    (x = Act.addPre (afterSuspend e s0).pre ∧ hasPreS e s0 = true ∧
      (grepQuadQ (discover e).1 = true →
        inspectRule e.privileged (afterSuspend e s0).pre = false)) ∨
    (x = Act.checkOut (inspectRule e.privileged (afterSuspend e s0).out) ∧
      hasOutS e s0 = true) ∨
    (x = Act.addOut (afterSuspend e s0).out ∧ hasOutS e s0 = true ∧
      (grepQuadQ (discover e).1 = true →
        inspectRule e.privileged (afterSuspend e s0).out = false)) ∨
    (x = Act.persistSave ∧ suspended e s0 = true ∧ e.persistAvail = true ∧
      grepQuadQ (discover e).1 = true) := by
  cases hg : grepQuadQ (discover e).1 with
  | false =>
    rw [run_trace_fail e s0 hc hg] at hm
    simp only [List.mem_append] at hm
    rcases hm with ((hm | hm) | hm) | hm | hm
    · simp only [List.mem_cons, List.mem_singleton, List.not_mem_nil, or_false] at hm
      rcases hm with rfl | rfl
      · exact Or.inl rfl
      · exact Or.inr (Or.inl rfl)
    · rcases mem_suspendTrace hm with ⟨rfl, h⟩ | ⟨rfl, h⟩
      · exact Or.inr (Or.inr (Or.inl ⟨rfl, h⟩))
      · exact Or.inr (Or.inr (Or.inr (Or.inl ⟨rfl, h⟩)))
    · refine Or.inr (Or.inr (Or.inr (Or.inr (Or.inl ?_))))
      rcases mem_discover hm with rfl | rfl | rfl | rfl <;> exact ⟨_, rfl⟩
    · obtain ⟨hcnd, hm⟩ := mem_ite_nil hm
      rw [List.mem_singleton] at hm
      rw [Bool.and_eq_true] at hcnd
      refine Or.inr (Or.inr (Or.inr (Or.inr (Or.inr (Or.inr (Or.inr (Or.inl
        ⟨hm, hcnd.2, fun hgg => ?_⟩)))))))
      simp at hgg
    · obtain ⟨hcnd, hm⟩ := mem_ite_nil hm
      rw [List.mem_singleton] at hm
      rw [Bool.and_eq_true] at hcnd
      refine Or.inr (Or.inr (Or.inr (Or.inr (Or.inr (Or.inr (Or.inr (Or.inr
        (Or.inr (Or.inl ⟨hm, hcnd.2, fun hgg => ?_⟩)))))))))
      simp at hgg
  | true =>
    rw [run_trace_reg e s0 hc hg] at hm
    simp only [List.mem_append] at hm
    rcases hm with (((((hm | hm) | hm) | hm) | hm) | hm) | hm
    · simp only [List.mem_cons, List.mem_singleton, List.not_mem_nil, or_false] at hm
      rcases hm with rfl | rfl
      · exact Or.inl rfl
      · exact Or.inr (Or.inl rfl)
    · rcases mem_suspendTrace hm with ⟨rfl, h⟩ | ⟨rfl, h⟩
      · exact Or.inr (Or.inr (Or.inl ⟨rfl, h⟩))
      · exact Or.inr (Or.inr (Or.inr (Or.inl ⟨rfl, h⟩)))
    · refine Or.inr (Or.inr (Or.inr (Or.inr (Or.inl ?_))))
      rcases mem_discover hm with rfl | rfl | rfl | rfl <;> exact ⟨_, rfl⟩
    · rw [List.mem_singleton] at hm
      exact Or.inr (Or.inr (Or.inr (Or.inr (Or.inr (Or.inl ⟨hm, rfl⟩)))))
    · obtain ⟨hcnd, hm⟩ := mem_ite_nil hm
      rw [Bool.and_eq_true] at hcnd
      rcases List.mem_cons.mp hm with rfl | hm2
      · exact Or.inr (Or.inr (Or.inr (Or.inr (Or.inr (Or.inr (Or.inl
          ⟨rfl, hcnd.2⟩))))))
      · obtain ⟨hnc, hm3⟩ := mem_ite_nil2 hm2
        rw [List.mem_singleton] at hm3
        refine Or.inr (Or.inr (Or.inr (Or.inr (Or.inr (Or.inr (Or.inr (Or.inl
          ⟨hm3, hcnd.2, fun _ => ?_⟩)))))))
        exact Bool.not_eq_true _ |>.mp hnc
    · obtain ⟨hcnd, hm⟩ := mem_ite_nil hm
      rw [Bool.and_eq_true] at hcnd
      rcases List.mem_cons.mp hm with rfl | hm2
      · exact Or.inr (Or.inr (Or.inr (Or.inr (Or.inr (Or.inr (Or.inr (Or.inr
          (Or.inl ⟨rfl, hcnd.2⟩))))))))
      · obtain ⟨hnc, hm3⟩ := mem_ite_nil2 hm2
        rw [List.mem_singleton] at hm3
        refine Or.inr (Or.inr (Or.inr (Or.inr (Or.inr (Or.inr (Or.inr (Or.inr
          (Or.inr (Or.inl ⟨hm3, hcnd.2, fun _ => ?_⟩)))))))))
        exact Bool.not_eq_true _ |>.mp hnc
    · obtain ⟨hcnd, hm⟩ := mem_ite_nil hm
      rw [List.mem_singleton] at hm
      rw [Bool.and_eq_true] at hcnd
      exact Or.inr (Or.inr (Or.inr (Or.inr (Or.inr (Or.inr (Or.inr (Or.inr
        (Or.inr (Or.inr ⟨hm, hcnd.1, hcnd.2, rfl⟩)))))))))

lemma no_register_of_invalid {e : Env} {s0 : FwState} {ip : String}
    (hg : grepQuadQ (discover e).1 = false)
    (hm : Act.register ip ∈ (run e s0).trace) : False := by
  by_cases hc : credsMissing e
  · rw [run, if_pos hc] at hm
    simp at hm
  · rw [Bool.not_eq_true] at hc
    rcases mem_run_trace_cases hc hm with h1|h1|h1|h1|h1|h1|h1|h1|h1|h1|h1 <;>
      simp_all

/-! ## The claims -/

/-- C1: whenever the snapshot recorded at least one rule present and
suspension occurred (credentials were present, so the body ran), every exit
path passes through restoration, and for every outcome of the Discovering and
Registering stages the rule-existence state observed immediately after the
run equals the snapshot captured at the start. -/
theorem restoration_invariant (e : Env) (s0 : FwState)
    (hc : credsMissing e = false) (hs : suspended e s0 = true) :
    decide (0 < (run e s0).state.pre) = hasPreS e s0 ∧
      decide (0 < (run e s0).state.out) = hasOutS e s0 := by
  have hpv : e.privileged = true := by
    by_contra hne
    rw [Bool.not_eq_true] at hne
    simp [suspended, hasPreS, hasOutS, inspectRule, hne] at hs
  rw [run_state e s0 hc]
  simp only [hasPreS, hasOutS, suspended, afterSuspend, inspectRule, hpv,
    Bool.true_and]
  by_cases hp : 0 < s0.pre <;> by_cases ho : 0 < s0.out <;>
    by_cases hg : grepQuadQ (discover e).1 <;>
    by_cases hp1 : 0 < s0.pre - 1 <;> by_cases ho1 : 0 < s0.out - 1 <;>
    simp [hp, ho, hg, hp1, ho1, decide_eq_true_eq] <;> omega

/-- Witness for C1: both rules present, address found, registration 200. -/
theorem restoration_invariant_witness :
    decide (0 < (run envOkBoth ⟨1, 1⟩).state.pre) = hasPreS envOkBoth ⟨1, 1⟩ ∧
      decide (0 < (run envOkBoth ⟨1, 1⟩).state.out) = hasOutS envOkBoth ⟨1, 1⟩ :=
  restoration_invariant envOkBoth ⟨1, 1⟩ (by decide) (by decide)

/-- C2 counterexample: when the first fetch fails leaving nonempty captured
output, the later sources are never invoked even though source 2 would yield
a structurally valid dotted quad; the run exits 1 without registering, so the
chain does not return the first structurally valid candidate. -/
theorem discovery_chain_ce :
    specValid "203.0.113.7" = true ∧
      specDiscover envC2ce = some "203.0.113.7" ∧
      (run envC2ce ⟨0, 0⟩).exitCode = 1 ∧
      Act.querySrc 2 ∉ (run envC2ce ⟨0, 0⟩).trace ∧
      Act.register "203.0.113.7" ∉ (run envC2ce ⟨0, 0⟩).trace :=
  ⟨by decide, by decide, by decide, by decide, by decide⟩

/-- C2 amended: provided every failed fetch leaves empty captured output and
sources 1–3 return single-line output, the chain tries the four sources in
order, returns the first structurally valid dotted quad (source 4's candidate
being its cleaned output), never invokes a later source after a valid result,
and when all four sources exhaust the run terminates with exit code 1 and no
registration call. -/
theorem discovery_chain_amended (e : Env)
    (hf1 : e.src1Ok = false → e.src1Out = "")
    (hf2 : e.src2Ok = false → e.src2Out = "")
    (hf3 : e.src3Ok = false → e.src3Out = "")
    (hf4 : e.src4Ok = false → e.src4Out = "")
    (hn1 : '\n' ∉ e.src1Out.data)
    (hn2 : '\n' ∉ e.src2Out.data)
    (hn3 : '\n' ∉ e.src3Out.data) :
    (discover e).1 = (specDiscover e).getD "" ∧
      (discover e).2 = specTried e ∧
      (specDiscover e = none → ∀ s0, credsMissing e = false →
        (run e s0).exitCode = 1 ∧
          ∀ ip, Act.register ip ∉ (run e s0).trace) := by
  have hv0 : specValid "" = false := by decide
  have hstep : ∀ (ok : Bool) (s : String), (ok = false → s = "") →
      '\n' ∉ s.data → srcStep ok s = (if ok && specValid s then s else "") := by
    intro ok s hf hn
    cases ok with
    | false => simp [srcStep, hf rfl, hv0]
    | true =>
      by_cases hs : s = ""
      · subst hs
        simp [srcStep, hv0]
      · simp [srcStep, hs, grepQuadQ_eq_of_no_nl hn, specValid]
  have h1 := hstep e.src1Ok e.src1Out hf1 hn1
  have h2 := hstep e.src2Ok e.src2Out hf2 hn2
  have h3 := hstep e.src3Ok e.src3Out hf3 hn3
  have hne : ∀ s : String, specValid s = true → s ≠ "" := by
    intro s hv h0
    rw [h0, hv0] at hv
    cases hv
  have hd : (discover e).1 = (specDiscover e).getD "" ∧
      (discover e).2 = specTried e := by
    rw [discover, specDiscover, specTried, h1, h2, h3]
    by_cases c1 : (e.src1Ok && specValid e.src1Out) = true
    · simp [c1, hne _ (Bool.and_eq_true _ _ |>.mp c1).2]
    · simp only [c1, if_false]
      by_cases c2 : (e.src2Ok && specValid e.src2Out) = true
      · simp [c2, hne _ (Bool.and_eq_true _ _ |>.mp c2).2]
      · simp only [c2, if_false]
        by_cases c3 : (e.src3Ok && specValid e.src3Out) = true
        · simp [c3, hne _ (Bool.and_eq_true _ _ |>.mp c3).2]
        · simp only [c3, if_false]
          cases hc4 : e.src4Ok with
          | false =>
            simp [src4Step, hc4, hf4 hc4, hv0]
          | true =>
            rcases cleanIP_cases e.src4Out with h0 | hvv
            · simp [src4Step, hc4, h0, hv0]
            · simp [src4Step, hc4, hvv, hne _ hvv]
  refine ⟨hd.1, hd.2, fun hnone s0 hc => ?_⟩
  have hzero : (discover e).1 = "" := by rw [hd.1, hnone]; rfl
  have hg : grepQuadQ (discover e).1 = false := by rw [hzero]; decide
  constructor
  · rw [run_exit, hc, hg]
    simp
  · intro ip hm
    exact no_register_of_invalid hg hm

/-- Witness for C2 amended: all four fetches fail with empty output; the
chain exhausts, the run exits 1. -/
theorem discovery_chain_amended_witness :
    (discover envFailSrc).1 = (specDiscover envFailSrc).getD "" ∧
      (discover envFailSrc).2 = specTried envFailSrc ∧
      (run envFailSrc ⟨0, 0⟩).exitCode = 1 := by
  have h := discovery_chain_amended envFailSrc (fun _ => rfl) (fun _ => rfl)
    (fun _ => rfl) (fun _ => rfl) (by decide) (by decide) (by decide)
  exact ⟨h.1, h.2.1, (h.2.2 (by decide) ⟨0, 0⟩ (by decide)).1⟩

/-- C3: the process exit code is 0 exactly when the run reaches the
Registering stage and the registration response's HTTP status equals 200;
any other status (including 2xx other than 200) and every earlier failure
(missing credentials, address unavailable) yields exit code 1. -/
theorem exit_code_iff_status200 (e : Env) (s0 : FwState) :
    (run e s0).exitCode =
      if reachesRegistering e && decide (e.regStatus = 200) then 0 else 1 := by
  rw [run_exit, reachesRegistering]
  by_cases h1 : credsMissing e <;> by_cases h2 : grepQuadQ (discover e).1 <;>
    by_cases h3 : e.regStatus = 200 <;> simp [h1, h2, h3]

/-- C4: if any of the three credentials is empty after input collection, the
run aborts with exit code 1 before any NAT inspection, NAT mutation, address
discovery, or registration call: the NAT state is unchanged and the command
trace is empty. -/
theorem missing_credentials_abort (e : Env) (s0 : FwState)
    (h : credsMissing e = true) : run e s0 = ⟨1, s0, []⟩ := by
  rw [run, if_pos h]

/-- Witness for C4: empty bearer token. -/
theorem missing_credentials_abort_witness :
    run envNoToken ⟨1, 1⟩ = ⟨1, ⟨1, 1⟩, []⟩ :=
  missing_credentials_abort envNoToken ⟨1, 1⟩ (by decide)

/-- C5 counterexample: the script's validator is `echo | grep -qE` with an
anchored pattern, which accepts a candidate when ANY of its newline-separated
lines is a dotted quad; the multi-line candidate below is accepted although
it does not consist of four digit groups separated by periods, refuting the
claimed if-and-only-if. -/
theorem validator_ce :
    grepQuadQ "abc\n1.2.3.4" = true ∧
      validChars "abc\n1.2.3.4".data = false ∧
      ¬dottedQuad "abc\n1.2.3.4".data :=
  ⟨by decide, by decide,
    fun h => absurd (validChars_of_dottedQuad h) (by decide)⟩

/-- C5 amended: the validator accepts a candidate exactly when some
newline-separated line of it consists of four groups of 1–3 decimal digits
separated by periods; for single-line candidates this is exactly the
dotted-quad grammar.  It rejects "1.2.3" and "abc.def.1.1", accepts
"203.0.113.7", and performs no 0–255 range check, so "999.1.1.1" is
accepted. -/
theorem validator_amended :
    (∀ s : String, grepQuadQ s = true ↔ ∃ l ∈ splitNl s.data, dottedQuad l) ∧
      (∀ s : String, '\n' ∉ s.data → (grepQuadQ s = true ↔ dottedQuad s.data)) ∧
      grepQuadQ "203.0.113.7" = true ∧ grepQuadQ "999.1.1.1" = true ∧
      grepQuadQ "1.2.3" = false ∧ grepQuadQ "abc.def.1.1" = false := by
  refine ⟨fun s => grepQuadQ_iff, fun s hn => ?_, by decide, by decide,
    by decide, by decide⟩
  rw [grepQuadQ_eq_of_no_nl hn]
  exact validChars_iff

/-- Witness for C5 amended: the single-line equivalence at "203.0.113.7". -/
theorem validator_amended_witness :
    grepQuadQ "203.0.113.7" = true ↔ dottedQuad "203.0.113.7".data :=
  validator_amended.2.1 "203.0.113.7" (by decide)

/-- C6 counterexample: the inspection commands redirect stderr to /dev/null
and treat any failure as "rule absent", so an unprivileged query of a present
rule returns exactly the same result as a privileged query of an absent rule,
and the two whole runs are observationally identical (same trace, same exit
code): no PermissionDenied condition is surfaced and the caller cannot
distinguish "rule absent" from "could not determine". -/
theorem inspector_ce :
    inspectRule false 1 = false ∧ inspectRule true 0 = false ∧
      (run envNoPriv ⟨1, 1⟩).trace = (run envPriv ⟨0, 0⟩).trace ∧
      (run envNoPriv ⟨1, 1⟩).exitCode = (run envPriv ⟨0, 0⟩).exitCode :=
  ⟨by decide, by decide, by decide, by decide⟩

/-- C6 amended: when the query mechanism is unavailable the inspector returns
false without crashing, but no PermissionDenied condition is surfaced: an
unprivileged run produces the same trace and exit code as a run against an
empty rule table, and never mutates the NAT state. -/
theorem inspector_amended (e : Env) (s0 : FwState)
    (hp : e.privileged = false) :
    (∀ n, inspectRule false n = false) ∧
      (run e s0).trace = (run e ⟨0, 0⟩).trace ∧
      (run e s0).exitCode = (run e ⟨0, 0⟩).exitCode ∧
      (run e s0).state = s0 := by
  obtain ⟨p0, q0⟩ := s0
  have hpre : ∀ s : FwState, hasPreS e s = false := fun s => by
    simp [hasPreS, inspectRule, hp]
  have hout : ∀ s : FwState, hasOutS e s = false := fun s => by
    simp [hasOutS, inspectRule, hp]
  have hsus : ∀ s : FwState, suspended e s = false := fun s => by
    simp [suspended, hpre s, hout s]
  refine ⟨fun n => rfl, ?_, ?_, ?_⟩
  · by_cases hc : credsMissing e
    · rw [run, run, if_pos hc, if_pos hc]
    · rw [Bool.not_eq_true] at hc
      cases hg : grepQuadQ (discover e).1 with
      | true =>
        rw [run_trace_reg e _ hc hg, run_trace_reg e ⟨0, 0⟩ hc hg]
        simp [hpre, hout, hsus, suspendTrace]
      | false =>
        rw [run_trace_fail e _ hc hg, run_trace_fail e ⟨0, 0⟩ hc hg]
        simp [hpre, hout, hsus, suspendTrace]
  · rw [run_exit, run_exit]
  · by_cases hc : credsMissing e
    · rw [run, if_pos hc]
    · rw [Bool.not_eq_true] at hc
      rw [run_state e _ hc]
      by_cases hg : grepQuadQ (discover e).1 <;>
        simp [hg, hsus, hpre, hout, afterSuspend]

/-- Witness for C6 amended: concrete unprivileged run with both rules
present. -/
theorem inspector_amended_witness :
    (run envNoPriv ⟨1, 1⟩).trace = (run envNoPriv ⟨0, 0⟩).trace ∧
      (run envNoPriv ⟨1, 1⟩).state = ⟨1, 1⟩ :=
  ⟨(inspector_amended envNoPriv ⟨1, 1⟩ rfl).2.1,
   (inspector_amended envNoPriv ⟨1, 1⟩ rfl).2.2.2⟩

/-- C7 counterexample: on the discovery-failure restoration path the script
re-appends the rule with `iptables -A` without any inspector check.  Starting
from two installed copies of the PREROUTING rule (the partial-restoration
scenario the spec says is tolerated), the run deletes one copy and then
re-installs while one copy is still present (the trace records `addPre 1`,
install with prior copy count 1, directly after the discovery queries with no
intervening check), refuting "re-installed only if an inspector check shows
it currently absent". -/
theorem idempotent_restore_ce :
    (run envFailSrc ⟨2, 0⟩).trace =
      [Act.checkPre true, Act.checkOut false, Act.delPre, Act.querySrc 1,
        Act.querySrc 2, Act.querySrc 3, Act.querySrc 4, Act.addPre 1] ∧
      (run envFailSrc ⟨2, 0⟩).state = ⟨2, 0⟩ :=
  ⟨by decide, by decide⟩

/-- C7 amended: only on the post-registration restoration path is a
snapshot-present rule re-installed guarded by an inspector check: there every
install happens only when the check reported the rule absent (zero copies
installed), so re-installation of an existing rule is skipped and the state
is unchanged.  The discovery-failure path appends unconditionally. -/
theorem idempotent_restore_amended (e : Env) (s0 : FwState)
    (hreg : reachesRegistering e = true) :
    (∀ n, Act.addPre n ∈ (run e s0).trace →
      inspectRule e.privileged n = false ∧ n = 0) ∧
    (∀ n, Act.addOut n ∈ (run e s0).trace →
      inspectRule e.privileged n = false ∧ n = 0) := by
  rw [reachesRegistering, Bool.and_eq_true, Bool.not_eq_true'] at hreg
  obtain ⟨hc, hg⟩ := hreg
  constructor
  · intro n hm
    rcases mem_run_trace_cases hc hm with h1|h1|h1|h1|h1|h1|h1|h1|h1|h1|h1
    · exact absurd h1 (by simp)
    · exact absurd h1 (by simp)
    · exact absurd h1.1 (by simp)
    · exact absurd h1.1 (by simp)
    · exact absurd h1 (by simp)
    · exact absurd h1.1 (by simp)
    · exact absurd h1.1 (by simp)
    · obtain ⟨heq, hpp, himp⟩ := h1
      have hn : n = (afterSuspend e s0).pre := by injection heq
      have hfalse := himp hg
      have hpv : e.privileged = true := by
        rw [hasPreS, inspectRule, Bool.and_eq_true] at hpp
        exact hpp.1
      subst hn
      exact ⟨hfalse, by rw [inspectRule, hpv, Bool.true_and] at hfalse; simpa using hfalse⟩
    · exact absurd h1.1 (by simp)
    · exact absurd h1.1 (by simp)
    · exact absurd h1.1 (by simp)
  · intro n hm
    rcases mem_run_trace_cases hc hm with h1|h1|h1|h1|h1|h1|h1|h1|h1|h1|h1
    · exact absurd h1 (by simp)
    · exact absurd h1 (by simp)
    · exact absurd h1.1 (by simp)
    · exact absurd h1.1 (by simp)
    · exact absurd h1 (by simp)
    · exact absurd h1.1 (by simp)
    · exact absurd h1.1 (by simp)
    · exact absurd h1.1 (by simp)
    · exact absurd h1.1 (by simp)
    · obtain ⟨heq, hpp, himp⟩ := h1
      have hn : n = (afterSuspend e s0).out := by injection heq
      have hfalse := himp hg
      have hpv : e.privileged = true := by
        rw [hasOutS, inspectRule, Bool.and_eq_true] at hpp
        exact hpp.1
      subst hn
      exact ⟨hfalse, by rw [inspectRule, hpv, Bool.true_and] at hfalse; simpa using hfalse⟩
    · exact absurd h1.1 (by simp)

/-- Witness for C7 amended: in a run reaching registration with both rules
present, the recorded install of the PREROUTING rule happened at copy
count 0. -/
theorem idempotent_restore_amended_witness :
    inspectRule envOkBoth.privileged 0 = false ∧ (0 : Nat) = 0 :=
  (idempotent_restore_amended envOkBoth ⟨1, 1⟩ (by decide)).1 0 (by decide)

/-- C8 counterexample: the discovery-failure path suspends and restores the
rule yet never attempts persistence even though `netfilter-persistent` is
installed, refuting "on every path that performed suspension and restoration,
persist() is attempted afterward". -/
theorem persist_ce :
    envFailSrc.persistAvail = true ∧
      Act.delPre ∈ (run envFailSrc ⟨1, 0⟩).trace ∧
      Act.addPre 0 ∈ (run envFailSrc ⟨1, 0⟩).trace ∧
      Act.persistSave ∉ (run envFailSrc ⟨1, 0⟩).trace :=
  ⟨by decide, by decide, by decide, by decide⟩

/-- C8 amended: persistence is attempted only on the post-registration
restoration path (when suspension occurred and the tool is present); the
discovery-failure restoration path never attempts it.  Persistence
availability never changes the exit code or the final NAT state, which remain
determined solely by the registration outcome. -/
theorem persist_amended (e : Env) (s0 : FwState) :
    (∀ b, (run { e with persistAvail := b } s0).exitCode =
        (run e s0).exitCode ∧
      (run { e with persistAvail := b } s0).state = (run e s0).state) ∧
    (reachesRegistering e = true → suspended e s0 = true →
      e.persistAvail = true → Act.persistSave ∈ (run e s0).trace) ∧
    (grepQuadQ (discover e).1 = false →
      Act.persistSave ∉ (run e s0).trace) := by
  refine ⟨fun b => ⟨?_, ?_⟩, ?_, ?_⟩
  · rw [run_exit, run_exit]
    rfl
  · by_cases hc : credsMissing e
    · have hc2 : credsMissing { e with persistAvail := b } = true := hc
      rw [run, run, if_pos hc2, if_pos hc]
    · rw [Bool.not_eq_true] at hc
      have hc2 : credsMissing { e with persistAvail := b } = false := hc
      rw [run_state { e with persistAvail := b } s0 hc2, run_state e s0 hc]
      rfl
  · intro hreg hsus hpa
    rw [reachesRegistering, Bool.and_eq_true, Bool.not_eq_true'] at hreg
    obtain ⟨hc, hg⟩ := hreg
    rw [run_trace_reg e s0 hc hg]
    simp [hsus, hpa]
  · intro hg hm
    by_cases hc : credsMissing e
    · rw [run, if_pos hc] at hm
      simp at hm
    · rw [Bool.not_eq_true] at hc
      rcases mem_run_trace_cases hc hm with h1|h1|h1|h1|h1|h1|h1|h1|h1|h1|h1 <;>
        simp_all

/-- Witness for C8 amended: persistence is attempted on the registration path
of a suspending run with the tool installed. -/
theorem persist_amended_witness :
    Act.persistSave ∈ (run envOkBoth ⟨1, 1⟩).trace :=
  (persist_amended envOkBoth ⟨1, 1⟩).2.1 (by decide) (by decide) (by decide)

/-- C9 counterexample: a multi-line candidate whose second line is a dotted
quad passes the per-line `grep -q` validation gate and is surfaced verbatim
to the registration call, although the registered value does not match the
dotted-quad grammar. -/
theorem registered_ip_ce :
    Act.register "abc\n203.0.113.7" ∈ (run envMultiLine ⟨0, 0⟩).trace ∧
      validChars "abc\n203.0.113.7".data = false ∧
      ¬dottedQuad "abc\n203.0.113.7".data ∧
      (run envMultiLine ⟨0, 0⟩).exitCode = 0 :=
  ⟨by decide, by decide,
    fun h => absurd (validChars_of_dottedQuad h) (by decide), by decide⟩

/-- C9 amended: every ipAddress surfaced to the registration call passes the
script's line-based validation gate (some newline-separated line of it is a
dotted quad); whenever the candidate is a single line this means it matches
the dotted-quad grammar exactly. -/
theorem registered_ip_amended (e : Env) (s0 : FwState) (ip : String)
    (hm : Act.register ip ∈ (run e s0).trace) :
    grepQuadQ ip = true ∧ ('\n' ∉ ip.data → dottedQuad ip.data) := by
  by_cases hc : credsMissing e
  · rw [run, if_pos hc] at hm
    simp at hm
  · rw [Bool.not_eq_true] at hc
    have hmain : grepQuadQ (discover e).1 = true ∧ ip = (discover e).1 := by
      rcases mem_run_trace_cases hc hm with h1|h1|h1|h1|h1|h1|h1|h1|h1|h1|h1
      · exact absurd h1 (by simp)
      · exact absurd h1 (by simp)
      · exact absurd h1.1 (by simp)
      · exact absurd h1.1 (by simp)
      · exact absurd h1 (by simp)
      · exact ⟨h1.2, by injection h1.1⟩
      · exact absurd h1.1 (by simp)
      · exact absurd h1.1 (by simp)
      · exact absurd h1.1 (by simp)
      · exact absurd h1.1 (by simp)
      · exact absurd h1.1 (by simp)
    obtain ⟨hg, hip⟩ := hmain
    subst hip
    refine ⟨hg, fun hnl => ?_⟩
    rw [grepQuadQ_eq_of_no_nl hnl] at hg
    exact validChars_iff.mp hg

/-- Witness for C9 amended: the registered address of the clean scenario is a
dotted quad. -/
theorem registered_ip_amended_witness :
    grepQuadQ "203.0.113.7" = true ∧ dottedQuad "203.0.113.7".data :=
  ⟨(registered_ip_amended envOkBoth ⟨0, 0⟩ "203.0.113.7" (by decide)).1,
   (registered_ip_amended envOkBoth ⟨0, 0⟩ "203.0.113.7" (by decide)).2
     (by decide)⟩

/-- C10: a rule recorded absent in the snapshot is never mutated: its copy
count is unchanged by the run and no delete or install command targeting it
is ever executed, independently for each of the two rules. -/
theorem absent_rule_frame (e : Env) (s0 : FwState) :
    (hasPreS e s0 = false →
      (run e s0).state.pre = s0.pre ∧ Act.delPre ∉ (run e s0).trace ∧
        ∀ n, Act.addPre n ∉ (run e s0).trace) ∧
    (hasOutS e s0 = false →
      (run e s0).state.out = s0.out ∧ Act.delOut ∉ (run e s0).trace ∧
        ∀ n, Act.addOut n ∉ (run e s0).trace) := by
  by_cases hc : credsMissing e
  · rw [run, if_pos hc]
    simp
  · rw [Bool.not_eq_true] at hc
    constructor
    · intro h
      refine ⟨?_, ?_, ?_⟩
      · rw [run_state e s0 hc]
        by_cases hg : grepQuadQ (discover e).1 <;>
          simp [hg, h, afterSuspend]
      · intro hm
        rcases mem_run_trace_cases hc hm with h1|h1|h1|h1|h1|h1|h1|h1|h1|h1|h1 <;>
          simp_all
      · intro n hm
        rcases mem_run_trace_cases hc hm with h1|h1|h1|h1|h1|h1|h1|h1|h1|h1|h1 <;>
          simp_all
    · intro h
      refine ⟨?_, ?_, ?_⟩
      · rw [run_state e s0 hc]
        by_cases hg : grepQuadQ (discover e).1 <;>
          simp [hg, h, afterSuspend]
      · intro hm
        rcases mem_run_trace_cases hc hm with h1|h1|h1|h1|h1|h1|h1|h1|h1|h1|h1 <;>
          simp_all
      · intro n hm
        rcases mem_run_trace_cases hc hm with h1|h1|h1|h1|h1|h1|h1|h1|h1|h1|h1 <;>
          simp_all

/-- Witness for C10: the OUTPUT rule, absent at the start of the clean
scenario, is untouched. -/
theorem absent_rule_frame_witness :
    (run envOkBoth ⟨1, 0⟩).state.out = 0 ∧
      Act.delOut ∉ (run envOkBoth ⟨1, 0⟩).trace :=
  ⟨((absent_rule_frame envOkBoth ⟨1, 0⟩).2 (by decide)).1,
   ((absent_rule_frame envOkBoth ⟨1, 0⟩).2 (by decide)).2.1⟩

end RegisterIp
